import Mathlib

/-!
# Verification of the DCF valuation engine (`src/DCF.py`)

Shallow embedding of the valuation core of the repository:

* `estimate_fcf_series` (DCF.py lines 25–56): locate or derive a historical
  free-cash-flow series from a statement bundle;
* `dcf_intrinsic_value` (DCF.py lines 58–80): project and discount the last
  FCFF value into an enterprise value;
* the per-share derivation inside `intrinsic_value_per_share`
  (DCF.py lines 101–116).

Modelling conventions:

* IEEE double-precision numbers are modelled by exact rationals `ℚ`.
  Division by zero in `ℚ` is the `x / 0 = 0` convention, whereas a NumPy
  float-scalar division by `0.0` yields `inf` with a runtime warning; every
  theorem that touches a zero denominator is stated so that only the
  presence or absence of an error is relied upon, never the quotient.
* A pandas `DataFrame` is a list of labelled rows sharing one column index
  (the reporting periods, `Int`); a `Series` is an association list from
  period to cell.
* A cell is either a number, a missing value (`None`/`NaN`, dropped by
  `dropna`), a string that `float()` accepts, or a string that `float()`
  rejects with `ValueError`.
* Python exceptions are the `PyErr` type; `except Exception` plus `raise
  ValueError(...)` (line 55–56) maps every exception of the fallback to
  `PyErr.valueError`.
-/

/-- Python exception kinds relevant to `DCF.py`. -/
inductive PyErr where
  | valueError
  | typeError
  | indexError
  deriving DecidableEq, Repr

/-- A cell of a statement table, as delivered by the data provider.
`nan` models a missing entry (`None`/`NaN`): `dropna` removes it, and
`float()` applied to a remaining `None` raises `TypeError`.
`numStr v` is a string that `float()` converts to `v`; `badStr` is a
placeholder string that `float()` rejects with `ValueError`. -/
inductive Cell where
  | num (v : ℚ)
  | nan
  | numStr (v : ℚ)
  | badStr
  deriving DecidableEq, Repr

/-- `pandas.isna` on a cell: only missing entries count. Strings are data,
not missing values. -/
def Cell.isna : Cell → Bool
  | .nan => true
  | _ => false

/-- `float(cell)`, as `astype(float)` applies it elementwise. -/
def cellToFloat : Cell → Except PyErr ℚ
  | .num v => .ok v
  | .numStr v => .ok v
  | .badStr => .error .valueError
  | .nan => .error .typeError

/-- The numeric value of a cell when it is a plain number (used where the
Python code feeds a raw cell into arithmetic). -/
def cellNum? : Cell → Option ℚ
  | .num v => some v
  | _ => none

/-- A statement table (pandas `DataFrame`): one shared column index of
reporting periods, most-recent-first as supplied by the provider, and a
list of labelled rows aligned with it. -/
structure Table where
  cols : List Int
  rows : List (String × List Cell)
  deriving DecidableEq, Repr

/-- `name in table.index`. -/
def Table.indexContains (t : Table) (name : String) : Bool :=
  t.rows.any (fun r => r.1 == name)

/-- `table.loc[name]`: the row with the given label, as a `Series`
(association list period ↦ cell). `none` when the label is absent. -/
def Table.loc (t : Table) (name : String) : Option (List (Int × Cell)) :=
  (t.rows.find? (fun r => r.1 == name)).map (fun r => t.cols.zip r.2)

/-- The bundle returned by `fetch_financials` (DCF.py lines 18–23):
income, cash-flow and balance-sheet tables plus the flat `info` map.
An `info` value of `none` models a key stored with Python `None`. -/
structure Bundle where
  income : Table
  cashflow : Table
  balance : Table
  info : List (String × Option ℚ)
  deriving DecidableEq, Repr

/-- `series.dropna()`: remove missing entries, keep everything else
(strings included). -/
def seriesDropna (s : List (Int × Cell)) : List (Int × Cell) :=
  s.filter (fun p => !p.2.isna)

/-- `series.astype(float)`: convert every cell, failing with the exception
of the first cell `float()` rejects. -/
def seriesAstype : List (Int × Cell) → Except PyErr (List (Int × ℚ))
  | [] => .ok []
  | p :: rest =>
    match cellToFloat p.2 with
    | .error e => .error e
    | .ok v =>
      match seriesAstype rest with
      | .error e => .error e
      | .ok vs => .ok ((p.1, v) :: vs)

/-- Insert a keyed entry into a list sorted ascending by key, keeping the
original order of equal keys. -/
def insertAsc (p : Int × ℚ) : List (Int × ℚ) → List (Int × ℚ)
  | [] => [p]
  | q :: t => if p.1 < q.1 then p :: q :: t else q :: insertAsc p t

/-- `series.sort_index()`: sort ascending by the period key. -/
def sortIndex (l : List (Int × ℚ)) : List (Int × ℚ) :=
  l.foldr insertAsc []

/-- Does `pat` occur at the start of `s`? (`str.startswith`). -/
def leadsWith : List Char → List Char → Bool
  | [], _ => true
  | _ :: _, [] => false
  | a :: as, b :: bs => a == b && leadsWith as bs

/-- Does `pat` occur somewhere in `s`? (Python `pat in s` on strings). -/
def hasSub (pat : List Char) : List Char → Bool
  | [] => pat.isEmpty
  | c :: rest => leadsWith pat (c :: rest) || hasSub pat rest

/-- Python substring test `pat in s` on `String`s. -/
def strContains (s pat : String) : Bool :=
  hasSub pat.data s.data

/-- DCF.py line 32: the configured spellings of the free-cash-flow row,
in preference order. Matching is exact string equality. -/
def fcfRowNames : List String :=
  ["Free Cash Flow", "Free cash flow", "FreeCashFlow"]

/-- DCF.py lines 31–35 plus the subsequent `cf.loc[fcf_row]`: the first
configured spelling present in the cash-flow index, resolved to its row. -/
def lookupFcfRow (cf : Table) : Option (List (Int × Cell)) :=
  (fcfRowNames.find? (fun n => cf.indexContains n)).bind (fun n => cf.loc n)

/-- DCF.py lines 25–56, `estimate_fcf_series(financials, years=4)`.

Direct phase (lines 31–41): find a configured FCF row; take
`cf.loc[row].dropna().iloc[:years].astype(float)`; if non-empty, return it
sorted ascending by period.  An `astype` failure (line 38) propagates
uncaught.

Fallback (lines 42–56): lines 45–51 compute `ebit`, `depr`, `capex` and
`fcff_approx`, but line 52 then evaluates
`print(f"  EBIT: {ebit:, .0f} ...")`, and `", .0f"` is not a valid Python
format specifier, so the very first interpolation raises `ValueError`
("Invalid format specifier") — and even with a valid specifier the final
field interpolates `fcff`, which on this path is unbound
(`UnboundLocalError`) or an empty `Series` (`TypeError`).  The
`except Exception` on line 55 catches it and line 56 re-raises
`ValueError("Error estimating FCFF: ...")`.  The `return` on line 54 is
therefore unreachable: every execution that reaches the fallback fails. -/
def estimate_fcf_series (financials : Bundle) (years : ℕ := 4) :
    Except PyErr (List (Int × ℚ)) :=
  match lookupFcfRow financials.cashflow with
  | some row =>
    match seriesAstype ((seriesDropna row).take years) with
    | .error e => .error e
    | .ok fcff =>
      if fcff = [] then .error .valueError
      else .ok (sortIndex fcff)
  | none => .error .valueError

/-- DCF.py lines 45–51 in isolation: the derived-fallback value
`fcff_approx = ebit * 0.7 + depr - capex` the code computes just before
the malformed debug print on line 52 raises.  `0.7` is exact here; in
IEEE doubles the worked example `500*0.7 + 50 - (-80)` also evaluates to
exactly `480.0`.  `none` models the non-numeric-cell and empty-row cases
whose exceptions line 56 would wrap. -/
def fallback_fcff_approx (financials : Bundle) : Option ℚ :=
  let cf := financials.cashflow
  let inc := financials.income
  let ebitO : Option ℚ :=
    if inc.indexContains "Ebit" then
      ((inc.rows.find? (fun r => r.1 == "Ebit")).bind (fun r => r.2.head?)).bind cellNum?
    else some 0
  let deprRow := cf.rows.find? (fun r => strContains r.1 "Depreciation")
  let capexRow :=
    cf.rows.find? (fun r => strContains r.1 "Capital" && strContains r.1 "Expend")
  let deprO : Option ℚ :=
    match deprRow with
    | some r => r.2.head?.bind cellNum?
    | none => some 0
  let capexO : Option ℚ :=
    match capexRow with
    | some r => r.2.head?.bind cellNum?
    | none => some 0
  match ebitO, deprO, capexO with
  | some e, some d, some c => some (e * (7 / 10) + d - c)
  | _, _, _ => none

/-- DCF.py lines 58–80, `dcf_intrinsic_value`.

`years = np.arange(1, growth_years + 1)`; `fcfs` and `disc` are the
elementwise arrays; `np.sum(fcfs * disc)` is the discounted sum;
`fcfs[-1]` raises `IndexError` when `growth_years = 0`.  The terminal
value divides by `wacc - terminal_growth` with no guard (NumPy floats:
`inf`/`nan` plus a warning, not an exception; here the `ℚ` convention
`x / 0 = 0` — no theorem relies on the quotient at a zero denominator). -/
def dcf_intrinsic_value (last_fcf : ℚ) (growth_years : ℕ)
    (growth_rate : ℚ := 8 / 100) (terminal_growth : ℚ := 3 / 100)
    (wacc : ℚ := 11 / 100) : Except PyErr ℚ :=
  let years := List.range' 1 growth_years
  let fcfs := years.map (fun i => last_fcf * (1 + growth_rate) ^ i)
  let disc := years.map (fun i => 1 / (1 + wacc) ^ i)
  let pv_fcfs := (List.zipWith (fun a b => a * b) fcfs disc).sum
  match fcfs.getLast? with
  | none => .error .indexError
  | some fLast =>
    let tv := fLast * (1 + terminal_growth) / (wacc - terminal_growth)
    let pv_tv := tv / (1 + wacc) ^ growth_years
    .ok (pv_fcfs + pv_tv)

/-- `info.get(key, 0) or 0` (DCF.py line 102): absent key ↦ `0`, stored
`None` ↦ `0`, stored `0` is falsy ↦ `0`, otherwise the stored value. -/
def pyGetOrZero (info : List (String × Option ℚ)) (k : String) : ℚ :=
  match (info.find? (fun p => p.1 == k)).map (fun p => p.2) with
  | none => 0
  | some none => 0
  | some (some v) => if v = 0 then 0 else v

/-- `info.get(key)` with a stored `None` collapsed to absence: the value
Python's truthiness tests and arithmetic below actually see. -/
def flatGet (info : List (String × Option ℚ)) (k : String) : Option ℚ :=
  ((info.find? (fun p => p.1 == k)).map (fun p => p.2)).bind id

/-- Python `a or b` on optional numbers: `a` when truthy (present and
nonzero), else `b`. -/
def pyOr (a b : Option ℚ) : Option ℚ :=
  match a with
  | some v => if v = 0 then b else some v
  | none => b

/-- DCF.py line 105: `info.get("sharesOutstanding") or info.get("floatShares")`. -/
def sharesOf (info : List (String × Option ℚ)) : Option ℚ :=
  pyOr (flatGet info "sharesOutstanding") (flatGet info "floatShares")

/-- The fields of the per-share result derived on DCF.py lines 102–116. -/
structure ShareValuation where
  equity_value : ℚ
  shares : ℚ
  value_per_share : ℚ
  deriving DecidableEq, Repr

/-- DCF.py lines 101–116, the per-share derivation of
`intrinsic_value_per_share` as a function of the already-computed
enterprise value `ev` and the `info` map:
`net_debt = (info.get("totalDebt", 0) or 0) - (info.get("totalCash", 0) or 0)`;
`equity_value = ev - net_debt`; `shares` from line 105 with
`raise ValueError("No share count available")` when falsy (line 106–107);
`value_per_share = equity_value / shares`. -/
def per_share_valuation (info : List (String × Option ℚ)) (ev : ℚ) :
    Except PyErr ShareValuation :=
  let net_debt := pyGetOrZero info "totalDebt" - pyGetOrZero info "totalCash"
  let equity_value := ev - net_debt
  match sharesOf info with
  | none => .error .valueError
  | some s =>
    if s = 0 then .error .valueError
    else .ok ⟨equity_value, s, equity_value / s⟩

/-! ## Helper lemmas on the DCF valuator -/

/-- NumPy's elementwise product of two arrays mapped from the same index
array. -/
lemma zipWith_mul_map (f h : ℕ → ℚ) :
    ∀ l : List ℕ,
      List.zipWith (fun a b => a * b) (l.map f) (l.map h) =
        l.map (fun i => f i * h i)
  | [] => rfl
  | x :: xs => by simp [zipWith_mul_map f h xs]

/-- The sum over `np.arange(1, N+1)` is the sum over `Finset.Icc 1 N`. -/
lemma map_range'_sum (F : ℕ → ℚ) (N : ℕ) :
    ((List.range' 1 N).map F).sum = ∑ i ∈ Finset.Icc 1 N, F i := by
  induction N with
  | zero => simp
  | succ n ih =>
    rw [List.range'_concat, List.map_append, List.sum_append,
      Finset.sum_Icc_succ_top (by omega), ih]
    simp [Nat.add_comm]

/-- `fcfs[-1]` over `np.arange(1, N+1)` is the value at `N` when `N ≥ 1`. -/
lemma map_range'_getLast (F : ℕ → ℚ) (N : ℕ) (hN : 1 ≤ N) :
    ((List.range' 1 N).map F).getLast? = some (F N) := by
  obtain ⟨n, rfl⟩ : ∃ n, N = n + 1 := ⟨N - 1, by omega⟩
  rw [List.range'_concat, List.map_append]
  simp [Nat.add_comm]

/-- `dcf_intrinsic_value`, spelled with the vectorised operations resolved:
the discounted sum over years `1..N` plus the discounted terminal value. -/
lemma dcf_spelled (lf g t w : ℚ) (N : ℕ) (hN : 1 ≤ N) :
    dcf_intrinsic_value lf N g t w =
      .ok ((∑ i ∈ Finset.Icc 1 N, lf * (1 + g) ^ i * (1 / (1 + w) ^ i)) +
        lf * (1 + g) ^ N * (1 + t) / (w - t) / (1 + w) ^ N) := by
  unfold dcf_intrinsic_value
  simp only [zipWith_mul_map, map_range'_sum, map_range'_getLast _ _ hN]

/-- The scale-free factor of the enterprise value: with `r = (1+g)/(1+w)`,
`Σ_{i=1..N} r^i + r^N·(1+t)/(w-t)`. -/
def evFactor (N : ℕ) (g t w : ℚ) : ℚ :=
  (∑ i ∈ Finset.Icc 1 N, ((1 + g) / (1 + w)) ^ i) +
    ((1 + g) / (1 + w)) ^ N * ((1 + t) / (w - t))

/-- The enterprise value is `last_fcf` times the scale-free factor. -/
lemma dcf_ok (lf g t w : ℚ) (N : ℕ) (hN : 1 ≤ N) :
    dcf_intrinsic_value lf N g t w = .ok (lf * evFactor N g t w) := by
  rw [dcf_spelled lf g t w N hN]
  refine congrArg Except.ok ?_
  have hsum : (∑ i ∈ Finset.Icc 1 N, lf * (1 + g) ^ i * (1 / (1 + w) ^ i)) =
      lf * ∑ i ∈ Finset.Icc 1 N, ((1 + g) / (1 + w)) ^ i := by
    rw [Finset.mul_sum]
    refine Finset.sum_congr rfl fun i _ => ?_
    rw [div_pow]
    ring
  rw [hsum, evFactor]
  conv_rhs => rw [mul_add]
  congr 1
  rw [div_pow]
  ring

/-- The Gordon-growth ratio `(1+t)/(w-t)` exceeds `-1` whenever
`t < w` and `-1 < w`. -/
lemma ratio_gt_neg_one (t w : ℚ) (hw : -1 < w) (htw : t < w) :
    -1 < (1 + t) / (w - t) := by
  rw [lt_div_iff₀ (by linarith)]
  linarith

/-- `Σ_{i=1..N} r^i + r^N·c > 0` for `r > 0`, `c > -1`, `N ≥ 1`. -/
lemma sum_pow_add_pos (r c : ℚ) (N : ℕ) (hr : 0 < r) (hc : -1 < c)
    (hN : 1 ≤ N) :
    0 < (∑ i ∈ Finset.Icc 1 N, r ^ i) + r ^ N * c := by
  have hmem : N ∈ Finset.Icc 1 N := by
    simp only [Finset.mem_Icc]
    omega
  have h1 : r ^ N ≤ ∑ i ∈ Finset.Icc 1 N, r ^ i :=
    Finset.single_le_sum (fun i _ => le_of_lt (pow_pos hr i)) hmem
  have h2 : r ^ N * (-1) < r ^ N * c :=
    mul_lt_mul_of_pos_left hc (pow_pos hr N)
  linarith

/-- `Σ_{i=1..N} r^i + r^N·c` is monotone in `r` on `r ≥ 0` when `c > -1`
and `N ≥ 1`. -/
lemma sum_pow_add_mono (r₁ r₂ c : ℚ) (N : ℕ) (h0 : 0 ≤ r₁) (h12 : r₁ ≤ r₂)
    (hc : -1 < c) (hN : 1 ≤ N) :
    (∑ i ∈ Finset.Icc 1 N, r₁ ^ i) + r₁ ^ N * c ≤
      (∑ i ∈ Finset.Icc 1 N, r₂ ^ i) + r₂ ^ N * c := by
  have hpow : ∀ i, r₁ ^ i ≤ r₂ ^ i := fun i => pow_le_pow_left₀ h0 h12 i
  have hmem : N ∈ Finset.Icc 1 N := by
    simp only [Finset.mem_Icc]
    omega
  have hsum : r₂ ^ N - r₁ ^ N ≤ ∑ i ∈ Finset.Icc 1 N, (r₂ ^ i - r₁ ^ i) :=
    Finset.single_le_sum (f := fun i => r₂ ^ i - r₁ ^ i)
      (fun i _ => by simpa using sub_nonneg.mpr (hpow i)) hmem
  have hsplit : (∑ i ∈ Finset.Icc 1 N, (r₂ ^ i - r₁ ^ i)) =
      (∑ i ∈ Finset.Icc 1 N, r₂ ^ i) - ∑ i ∈ Finset.Icc 1 N, r₁ ^ i :=
    Finset.sum_sub_distrib
  have hd : 0 ≤ r₂ ^ N - r₁ ^ N := by linarith [hpow N]
  have h2 : (r₂ ^ N - r₁ ^ N) * (-1) ≤ (r₂ ^ N - r₁ ^ N) * c :=
    mul_le_mul_of_nonneg_left (le_of_lt hc) hd
  rw [sub_mul, sub_mul] at h2
  linarith

/-- Positivity of the scale-free enterprise-value factor on the realistic
domain `1+g > 0`, `1+w > 0`, `t < w`. -/
lemma evFactor_pos (N : ℕ) (g t w : ℚ) (hN : 1 ≤ N) (hg : -1 < g)
    (hw : -1 < w) (htw : t < w) : 0 < evFactor N g t w := by
  rw [evFactor]
  exact sum_pow_add_pos _ _ N (div_pos (by linarith) (by linarith))
    (ratio_gt_neg_one t w hw htw) hN

/-- Monotonicity of the scale-free factor in the growth rate on the
domain `1+g ≥ 0`, `1+w > 0`, `t < w`. -/
lemma evFactor_mono (N : ℕ) (g₁ g₂ t w : ℚ) (hN : 1 ≤ N) (hg : -1 ≤ g₁)
    (hg12 : g₁ ≤ g₂) (hw : -1 < w) (htw : t < w) :
    evFactor N g₁ t w ≤ evFactor N g₂ t w := by
  rw [evFactor, evFactor]
  refine sum_pow_add_mono _ _ _ N ?_ ?_ (ratio_gt_neg_one t w hw htw) hN
  · exact div_nonneg (by linarith) (by linarith)
  · exact (div_le_div_iff_of_pos_right (by linarith)).mpr (by linarith)

/-! ## Claims about the DCF valuator -/

/-- C1: for every `last_fcf` and assumptions with `growth_years ≥ 1` and
`WACC ≠ terminal_growth`, the enterprise value returned by
`dcf_intrinsic_value` is exactly the closed form
`Σ_{i=1..N} last_fcf·(1+g)^i/(1+w)^i +
 [last_fcf·(1+g)^N·(1+t)/(w−t)]/(1+w)^N`. -/
theorem dcf_closed_form (lf g t w : ℚ) (N : ℕ) (hN : 1 ≤ N) (hwt : w ≠ t) :
    dcf_intrinsic_value lf N g t w =
      .ok ((∑ i ∈ Finset.Icc 1 N, lf * (1 + g) ^ i / (1 + w) ^ i) +
        (lf * (1 + g) ^ N * (1 + t) / (w - t)) / (1 + w) ^ N) := by
  rw [dcf_spelled lf g t w N hN]
  refine congrArg Except.ok (congrArg₂ (· + ·) ?_ rfl)
  exact Finset.sum_congr rfl fun i _ => by ring

/-- Witness for C1 at `last_fcf = 1`, `N = 1`, `g = 0`, `t = 0`, `w = 1`. -/
theorem dcf_closed_form_witness :
    dcf_intrinsic_value 1 1 0 0 1 =
      .ok ((∑ i ∈ Finset.Icc 1 1, 1 * (1 + 0) ^ i / (1 + 1) ^ i) +
        (1 * (1 + 0) ^ 1 * (1 + 0) / (1 - 0)) / (1 + 1) ^ 1) :=
  dcf_closed_form 1 0 0 1 1 (by norm_num) (by norm_num)

/-- C4 counterexample: with `WACC = terminal_growth = 0.03` (and the spec's
other example values) `dcf_intrinsic_value` returns a non-error result —
the claimed `InvalidAssumptions` failure does not happen. -/
theorem dcf_equal_rates_counterexample :
    (dcf_intrinsic_value 100 5 (8 / 100) (3 / 100) (3 / 100)).isOk = true := by
  simp [dcf_intrinsic_value, List.range', Except.isOk, Except.toBool]

/-- C4 (amended): `dcf_intrinsic_value` performs no validation of its
assumptions.  Called with `WACC = terminal_growth` (any `growth_years ≥ 1`)
it executes the terminal-value division anyway and returns a non-error
value (in NumPy doubles an infinite or NaN value with a runtime warning;
in this exact-rational model the `x/0 = 0` convention) — it never raises
an `InvalidAssumptions`-style error. -/
theorem dcf_no_validation (lf g t : ℚ) (N : ℕ) (hN : 1 ≤ N) :
    (dcf_intrinsic_value lf N g t t).isOk = true := by
  rw [dcf_ok lf g t t N hN]
  rfl

/-- Witness for the amended C4 at `last_fcf = 1`, `N = 1`, `g = 0`,
`t = w = 0`. -/
theorem dcf_no_validation_witness :
    (dcf_intrinsic_value 1 1 0 0 0).isOk = true :=
  dcf_no_validation 1 0 0 1 (by norm_num)

/-- C6 counterexample: with `growth_rate = −1`, `terminal_growth = 0.03 <
WACC = 0.11` and `growth_years = 5 ≥ 1`, the enterprise value is `0` for
both `last_fcf = 1` and `last_fcf = 2`, so `dcf_intrinsic_value` is not
strictly monotonically increasing in `last_fcf` over `last_fcf > 0` for
every assumptions record with `WACC > terminal_growth` and
`growth_years ≥ 1`. -/
theorem dcf_monotone_counterexample :
    ¬ (∀ (N : ℕ) (g t w a b va vb : ℚ), 1 ≤ N → t < w → 0 < a → a < b →
        dcf_intrinsic_value a N g t w = .ok va →
        dcf_intrinsic_value b N g t w = .ok vb → va < vb) := by
  intro h
  have h1 : dcf_intrinsic_value 1 5 (-1) (3 / 100) (11 / 100) = .ok 0 := by
    simp [dcf_intrinsic_value, List.range']
  have h2 : dcf_intrinsic_value 2 5 (-1) (3 / 100) (11 / 100) = .ok 0 := by
    simp [dcf_intrinsic_value, List.range']
  exact absurd
    (h 5 (-1) (3 / 100) (11 / 100) 1 2 0 0 (by norm_num) (by norm_num)
      (by norm_num) (by norm_num) h1 h2)
    (lt_irrefl 0)

/-- C6 (amended): on the realistic domain where additionally
`growth_rate > -1` and `WACC > -1` (so `1+g` and `1+w` are positive; the
counterexample `growth_rate = -1` shows the restriction is needed), with
`WACC > terminal_growth` and `growth_years ≥ 1`:
(1) `dcf_intrinsic_value` is strictly monotonically increasing in
`last_fcf` over `last_fcf > 0`; and
(2) for fixed `last_fcf > 0` it is monotonically increasing in
`growth_rate` (growth rates `≥ -1`). -/
theorem dcf_monotone :
    (∀ (N : ℕ) (g t w a b : ℚ), 1 ≤ N → -1 < g → -1 < w → t < w →
      0 < a → a < b →
      ∃ va vb, dcf_intrinsic_value a N g t w = .ok va ∧
        dcf_intrinsic_value b N g t w = .ok vb ∧ va < vb) ∧
    (∀ (N : ℕ) (t w lf g₁ g₂ : ℚ), 1 ≤ N → -1 < w → t < w →
      0 < lf → -1 ≤ g₁ → g₁ ≤ g₂ →
      ∃ va vb, dcf_intrinsic_value lf N g₁ t w = .ok va ∧
        dcf_intrinsic_value lf N g₂ t w = .ok vb ∧ va ≤ vb) := by
  constructor
  · intro N g t w a b hN hg hw htw ha hab
    refine ⟨a * evFactor N g t w, b * evFactor N g t w,
      dcf_ok a g t w N hN, dcf_ok b g t w N hN, ?_⟩
    exact mul_lt_mul_of_pos_right hab (evFactor_pos N g t w hN hg hw htw)
  · intro N t w lf g₁ g₂ hN hw htw hlf hg1 hg12
    refine ⟨lf * evFactor N g₁ t w, lf * evFactor N g₂ t w,
      dcf_ok lf g₁ t w N hN, dcf_ok lf g₂ t w N hN, ?_⟩
    exact mul_le_mul_of_nonneg_left
      (evFactor_mono N g₁ g₂ t w hN hg1 hg12 hw htw) (le_of_lt hlf)

/-- Witness for the amended C6: strict growth in `last_fcf` at
`N = 1`, `g = 0`, `t = 0`, `w = 1`, `last_fcf` from `1` to `2`. -/
theorem dcf_monotone_witness :
    ∃ va vb, dcf_intrinsic_value 1 1 0 0 1 = .ok va ∧
      dcf_intrinsic_value 2 1 0 0 1 = .ok vb ∧ va < vb :=
  dcf_monotone.1 1 0 0 1 1 2 (by norm_num) (by norm_num) (by norm_num)
    (by norm_num) (by norm_num) (by norm_num)

/-- C10: `dcf_intrinsic_value` is homogeneous of degree 1 in `last_fcf`:
scaling `last_fcf` by any `c` scales the enterprise value by `c`, and
`last_fcf = 0` yields enterprise value `0` (for `growth_years ≥ 1` and
`WACC ≠ terminal_growth`; exact arithmetic). -/
theorem dcf_homogeneous (c lf g t w : ℚ) (N : ℕ) (hN : 1 ≤ N)
    (hwt : w ≠ t) :
    (∃ v, dcf_intrinsic_value lf N g t w = .ok v ∧
      dcf_intrinsic_value (c * lf) N g t w = .ok (c * v)) ∧
    dcf_intrinsic_value 0 N g t w = .ok 0 := by
  refine ⟨⟨lf * evFactor N g t w, dcf_ok lf g t w N hN, ?_⟩, ?_⟩
  · rw [dcf_ok (c * lf) g t w N hN]
    exact congrArg Except.ok (by ring)
  · rw [dcf_ok 0 g t w N hN]
    norm_num

/-- Witness for C10 at `c = 2`, `last_fcf = 3`, `N = 1`, `g = 0`, `t = 0`,
`w = 1`. -/
theorem dcf_homogeneous_witness :
    (∃ v, dcf_intrinsic_value 3 1 0 0 1 = .ok v ∧
      dcf_intrinsic_value (2 * 3) 1 0 0 1 = .ok (2 * v)) ∧
    dcf_intrinsic_value 0 1 0 0 1 = .ok 0 :=
  dcf_homogeneous 2 3 0 0 1 1 (by norm_num) (by norm_num)

/-! ## Helper lemmas on the FCFF extractor -/

/-- `astype(float)` on a series without missing entries but with at least
one non-convertible string raises `ValueError`. -/
lemma astype_badStr :
    ∀ l : List (Int × Cell), (∀ p ∈ l, p.2 ≠ Cell.nan) →
      (∃ p ∈ l, p.2 = Cell.badStr) → seriesAstype l = .error .valueError := by
  intro l
  induction l with
  | nil =>
    intro _ h
    simp at h
  | cons q rest ih =>
    intro hna hex
    have hqnan : q.2 ≠ Cell.nan := hna q (List.mem_cons_self q rest)
    cases hcell : q.2 with
    | nan => exact absurd hcell hqnan
    | badStr => simp [seriesAstype, cellToFloat, hcell]
    | num v =>
      have hex' : ∃ p ∈ rest, p.2 = Cell.badStr := by
        rcases hex with ⟨p, hp, hb⟩
        rcases List.mem_cons.mp hp with rfl | hp'
        · rw [hcell] at hb
          simp at hb
        · exact ⟨p, hp', hb⟩
      have hrest := ih (fun p hp => hna p (List.mem_cons_of_mem _ hp)) hex'
      simp [seriesAstype, cellToFloat, hcell, hrest]
    | numStr v =>
      have hex' : ∃ p ∈ rest, p.2 = Cell.badStr := by
        rcases hex with ⟨p, hp, hb⟩
        rcases List.mem_cons.mp hp with rfl | hp'
        · rw [hcell] at hb
          simp at hb
        · exact ⟨p, hp', hb⟩
      have hrest := ih (fun p hp => hna p (List.mem_cons_of_mem _ hp)) hex'
      simp [seriesAstype, cellToFloat, hcell, hrest]

/-! ## Claims about the FCFF extractor -/

/-- The worked fallback example of the spec: no free-cash-flow row,
income `Ebit = 500`, cash-flow `"Depreciation of PPE" = 50` and
`"Capital Expenditures" = -80`. -/
def bundleC2 : Bundle :=
  ⟨⟨[2023], [("Ebit", [.num 500])]⟩,
   ⟨[2023], [("Depreciation of PPE", [.num 50]),
             ("Capital Expenditures", [.num (-80)])]⟩,
   ⟨[], []⟩, []⟩

/-- C2 (code bug): on the spec's own fallback example the code computes
`fcff_approx = 500·0.7 + 50 − (−80) = 480` (second conjunct) but
`estimate_fcf_series` nevertheless raises `ValueError` (first conjunct),
because the debug print on line 52 uses the malformed format specifier
`", .0f"` and interpolates the unbound variable `fcff`; the claimed
single-element series `480` is never returned. -/
theorem estimate_fallback_bug :
    estimate_fcf_series bundleC2 4 = .error .valueError ∧
    fallback_fcff_approx bundleC2 = some 480 := by
  constructor
  · simp [estimate_fcf_series, lookupFcfRow, fcfRowNames, Table.indexContains,
      bundleC2]
  · simp [fallback_fcff_approx, bundleC2, Table.indexContains, strContains,
      hasSub, leadsWith, cellNum?]
    norm_num

/-- A cash-flow table whose free-cash-flow row is spelled in lowercase —
a cased variant the spec's claim covers but the code's exact-match list
does not. -/
def bundleC3 : Bundle :=
  ⟨⟨[], []⟩, ⟨[2023], [("free cash flow", [.num 100])]⟩, ⟨[], []⟩, []⟩

/-- C3 counterexample: the cash-flow table contains the label
`"free cash flow"` (a cased variant of "free cash flow") with a numeric
value, yet `estimate_fcf_series` does not return that row's values — it
falls through to the (failing) derived fallback, because the code matches
only the three exact spellings `"Free Cash Flow"`, `"Free cash flow"`,
`"FreeCashFlow"`. -/
theorem fcf_variant_counterexample :
    bundleC3.cashflow.indexContains "free cash flow" = true ∧
    estimate_fcf_series bundleC3 4 = .error .valueError := by
  constructor
  · simp [Table.indexContains, bundleC3]
  · simp [estimate_fcf_series, lookupFcfRow, fcfRowNames, Table.indexContains,
      bundleC3]

/-- C3 (amended): when the cash-flow table contains one of the three
exactly-spelled labels `"Free Cash Flow"`, `"Free cash flow"`,
`"FreeCashFlow"` (first in preference order wins) and the first
`max_periods` retained entries of that row convert to at least one
numeric value, `estimate_fcf_series` returns exactly those values sorted
chronologically — the derived fallback is never invoked (it would have
raised `ValueError`). -/
theorem fcf_direct_lookup (b : Bundle) (years : ℕ)
    (row : List (Int × Cell)) (vals : List (Int × ℚ))
    (hrow : lookupFcfRow b.cashflow = some row)
    (hvals : seriesAstype ((seriesDropna row).take years) = .ok vals)
    (hne : vals ≠ []) :
    estimate_fcf_series b years = .ok (sortIndex vals) := by
  simp [estimate_fcf_series, hrow, hvals, hne]

/-- A cash-flow table with an exactly-spelled FCF row holding two numeric
values, most-recent-first. -/
def bundleC3w : Bundle :=
  ⟨⟨[], []⟩, ⟨[2023, 2022], [("Free Cash Flow", [.num 1000, .num 900])]⟩,
   ⟨[], []⟩, []⟩

/-- Witness for the amended C3 on a concrete bundle. -/
theorem fcf_direct_lookup_witness :
    estimate_fcf_series bundleC3w 4 =
      .ok (sortIndex [(2023, 1000), (2022, 900)]) :=
  fcf_direct_lookup bundleC3w 4
    [((2023 : Int), Cell.num 1000), ((2022 : Int), Cell.num 900)]
    [(2023, 1000), (2022, 900)]
    (by simp [lookupFcfRow, fcfRowNames, Table.indexContains, Table.loc,
      bundleC3w])
    (by simp [seriesAstype, seriesDropna, Cell.isna, cellToFloat])
    (by simp)

/-- A cash-flow table with no FCF row but a Depreciation row present —
one of the three fallback inputs is available. -/
def bundleC5 : Bundle :=
  ⟨⟨[], []⟩, ⟨[2023], [("Depreciation of PPE", [.num 50])]⟩, ⟨[], []⟩, []⟩

/-- C5 counterexample: a Depreciation row is present (so not all three
fallback inputs are absent), the direct lookup yields nothing, and yet
`estimate_fcf_series` fails — the derived fallback does not succeed,
contradicting "whenever at least one of the three is present, the derived
fallback succeeds rather than failing". -/
theorem fallback_presence_counterexample :
    (bundleC5.cashflow.rows.any (fun r => strContains r.1 "Depreciation")) =
      true ∧
    estimate_fcf_series bundleC5 4 = .error .valueError := by
  constructor
  · simp [bundleC5, strContains, hasSub, leadsWith]
  · simp [estimate_fcf_series, lookupFcfRow, fcfRowNames, Table.indexContains,
      bundleC5]

/-- C5 (amended): `estimate_fcf_series` fails with `ValueError` whenever
the direct lookup yields nothing — no matching label, or a matched row
left empty by `dropna`/`iloc[:years]` — regardless of which of the three
fallback inputs (EBIT, Depreciation, CapEx) are present, because the
fallback's debug print (line 52) always raises and line 56 re-raises
`ValueError`.  The failure condition is thus "direct lookup yields
nothing", not "all three fallback inputs absent". -/
theorem fallback_always_fails (b : Bundle) (years : ℕ)
    (h : lookupFcfRow b.cashflow = none ∨
      ∃ row, lookupFcfRow b.cashflow = some row ∧
        seriesAstype ((seriesDropna row).take years) = .ok []) :
    estimate_fcf_series b years = .error .valueError := by
  rcases h with h | ⟨row, hrow, hempty⟩
  · simp [estimate_fcf_series, h]
  · simp [estimate_fcf_series, hrow, hempty]

/-- A bundle with an EBIT row available to the fallback but no FCF row in
the cash-flow table. -/
def bundleC5w : Bundle :=
  ⟨⟨[2023], [("Ebit", [.num 7])]⟩, ⟨[2023], [("Total Revenue", [.num 3])]⟩,
   ⟨[], []⟩, []⟩

/-- Witness for the amended C5 on a concrete bundle. -/
theorem fallback_always_fails_witness :
    estimate_fcf_series bundleC5w 4 = .error .valueError :=
  fallback_always_fails bundleC5w 4
    (Or.inl (by simp [lookupFcfRow, fcfRowNames, Table.indexContains,
      bundleC5w]))

/-- A matched FCF row whose second entry is a placeholder string that
`float()` rejects. -/
def bundleC9 : Bundle :=
  ⟨⟨[], []⟩, ⟨[2023, 2022], [("Free Cash Flow", [.num 100, .badStr])]⟩,
   ⟨[], []⟩, []⟩

/-- C9 counterexample: the matched free-cash-flow row contains a present
but non-numeric entry; `estimate_fcf_series` does not drop it and return
the remaining numeric value `100` — `astype(float)` raises `ValueError`,
so the extraction fails. -/
theorem nonnumeric_drop_counterexample :
    bundleC9.cashflow.indexContains "Free Cash Flow" = true ∧
    estimate_fcf_series bundleC9 4 = .error .valueError := by
  constructor
  · simp [Table.indexContains, bundleC9]
  · simp [estimate_fcf_series, lookupFcfRow, fcfRowNames, Table.indexContains,
      Table.loc, bundleC9, seriesDropna, Cell.isna, seriesAstype, cellToFloat]

/-- C9 (amended): `dropna` removes only missing entries (`None`/`NaN`);
a present but non-float-convertible string among the first `max_periods`
retained entries of the matched row is not dropped — `astype(float)`
raises `ValueError` on it and the extraction fails (float-convertible
strings are coerced to their numeric value, not dropped). -/
theorem nonnumeric_string_error (b : Bundle) (years : ℕ)
    (row : List (Int × Cell)) (hrow : lookupFcfRow b.cashflow = some row)
    (hbad : ∃ p ∈ (seriesDropna row).take years, p.2 = Cell.badStr) :
    estimate_fcf_series b years = .error .valueError := by
  have hna : ∀ p ∈ (seriesDropna row).take years, p.2 ≠ Cell.nan := by
    intro p hp hnan
    have hp' : p ∈ seriesDropna row := List.take_subset _ _ hp
    rw [seriesDropna] at hp'
    have h2 := List.of_mem_filter hp'
    rw [hnan] at h2
    simp [Cell.isna] at h2
  simp [estimate_fcf_series, hrow, astype_badStr _ hna hbad]

/-- A matched FCF row with a numeric entry, a missing entry and a
placeholder string. -/
def bundleC9w : Bundle :=
  ⟨⟨[], []⟩,
   ⟨[2023, 2022, 2021], [("Free Cash Flow", [.num 100, .nan, .badStr])]⟩,
   ⟨[], []⟩, []⟩

/-- Witness for the amended C9 on a concrete bundle (the `NaN` entry is
dropped by `dropna`; the placeholder string still reaches `astype`). -/
theorem nonnumeric_string_error_witness :
    estimate_fcf_series bundleC9w 4 = .error .valueError :=
  nonnumeric_string_error bundleC9w 4
    [((2023 : Int), Cell.num 100), ((2022 : Int), Cell.nan),
     ((2021 : Int), Cell.badStr)]
    (by simp [lookupFcfRow, fcfRowNames, Table.indexContains, Table.loc,
      bundleC9w])
    ⟨((2021 : Int), Cell.badStr), by simp [seriesDropna, Cell.isna], rfl⟩

/-! ## Claims about the per-share derivation -/

/-- Python falsiness of an optional share count: absent, stored `None`
(both collapsed to `none`), or zero. -/
def optFalsy (o : Option ℚ) : Prop :=
  o = none ∨ o = some 0

/-- `a or b` is falsy exactly when both operands are. -/
lemma pyOr_falsy (a b : Option ℚ) :
    optFalsy (pyOr a b) ↔ optFalsy a ∧ optFalsy b := by
  cases a with
  | none => simp [pyOr, optFalsy]
  | some v =>
    by_cases hv : v = 0
    · subst hv
      simp [pyOr, optFalsy]
    · simp [pyOr, optFalsy, hv]

/-- The per-share derivation errors exactly when the resolved share count
is falsy. -/
lemma per_share_err (info : List (String × Option ℚ)) (ev : ℚ) :
    (per_share_valuation info ev).isOk = false ↔ optFalsy (sharesOf info) := by
  rw [per_share_valuation]
  cases h : sharesOf info with
  | none => simp [optFalsy, Except.isOk, Except.toBool]
  | some s =>
    by_cases hs : s = 0
    · subst hs
      simp [optFalsy, Except.isOk, Except.toBool]
    · simp [optFalsy, Except.isOk, Except.toBool, hs]

/-- C7: the share count used is `sharesOutstanding`; whenever it is
absent or zero/falsy, `floatShares` is used instead (in particular when
`floatShares` is present and nonzero); and the derivation fails — the
`MissingShareCount` condition, `raise ValueError("No share count
available")` in the code — exactly when both are absent or zero. -/
theorem share_count_selection (info : List (String × Option ℚ)) (ev : ℚ) :
    (¬ optFalsy (flatGet info "sharesOutstanding") →
      sharesOf info = flatGet info "sharesOutstanding") ∧
    (optFalsy (flatGet info "sharesOutstanding") →
      sharesOf info = flatGet info "floatShares") ∧
    ((per_share_valuation info ev).isOk = false ↔
      optFalsy (flatGet info "sharesOutstanding") ∧
        optFalsy (flatGet info "floatShares")) := by
  refine ⟨?_, ?_, ?_⟩
  · intro hnf
    cases hso : flatGet info "sharesOutstanding" with
    | none => exact absurd (Or.inl hso) hnf
    | some v =>
      by_cases hv : v = 0
      · exact absurd (Or.inr (by rw [hso, hv])) hnf
      · simp [sharesOf, pyOr, hso, hv]
  · intro hf
    rcases hf with hso | hso <;> simp [sharesOf, pyOr, hso]
  · rw [per_share_err, sharesOf, pyOr_falsy]

/-- An info map with a falsy `sharesOutstanding` of `0` and a nonzero
`floatShares`. -/
def info7 : List (String × Option ℚ) :=
  [("sharesOutstanding", some 0), ("floatShares", some 200)]

/-- Witness for C7: with `sharesOutstanding = 0`, the share count falls
back to `floatShares`. -/
theorem share_count_selection_witness :
    sharesOf info7 = flatGet info7 "floatShares" :=
  (share_count_selection info7 0).2.1 (Or.inr (by simp [flatGet, info7]))

/-- `info.get(k, 0) or 0` equals the stored value, defaulting to `0` when
the key is absent (or stored as `None`). -/
lemma pyGetOrZero_eq (info : List (String × Option ℚ)) (k : String) :
    pyGetOrZero info k = (flatGet info k).getD 0 := by
  rw [pyGetOrZero, flatGet]
  cases h : (info.find? (fun p => p.1 == k)).map (fun p => p.2) with
  | none => rfl
  | some o =>
    cases o with
    | none => rfl
    | some v => by_cases hv : v = 0 <;> simp [hv]

/-- C8: for every info map and enterprise value `ev`, whenever a nonzero
share count resolves, the per-share derivation succeeds — it never fails
on missing debt or cash — and the result satisfies
`equity_value = ev − net_debt` with
`net_debt = totalDebt − totalCash` (each defaulting to `0` when absent),
and `value_per_share = equity_value / shares`. -/
theorem per_share_formula (info : List (String × Option ℚ)) (ev s : ℚ)
    (hs : sharesOf info = some s) (hnz : s ≠ 0) :
    per_share_valuation info ev =
      .ok ⟨ev - ((flatGet info "totalDebt").getD 0 -
          (flatGet info "totalCash").getD 0), s,
        (ev - ((flatGet info "totalDebt").getD 0 -
          (flatGet info "totalCash").getD 0)) / s⟩ := by
  simp [per_share_valuation, hs, hnz, pyGetOrZero_eq]

/-- An info map with a share count but neither `totalDebt` nor
`totalCash`. -/
def info8 : List (String × Option ℚ) :=
  [("sharesOutstanding", some 100)]

/-- Witness for C8: debt and cash both absent default to `0`; the
derivation succeeds. -/
theorem per_share_formula_witness :
    per_share_valuation info8 1000 =
      .ok ⟨1000 - ((flatGet info8 "totalDebt").getD 0 -
          (flatGet info8 "totalCash").getD 0), 100,
        (1000 - ((flatGet info8 "totalDebt").getD 0 -
          (flatGet info8 "totalCash").getD 0)) / 100⟩ :=
  per_share_formula info8 1000 100
    (by simp [sharesOf, pyOr, flatGet, info8]) (by norm_num)
